import Mathlib

/-!
Verification of the statistical-analysis engine of `src/analysis.rs`
(`impl StatisticalAnalysis`): one-way and two-way ANOVA, paired and
Welch t-tests, and the LSD post-hoc test.

Modelling conventions:

* `f64` values are modelled as exact rationals (`ℚ`).  Every identity
  claimed of the engine is algebraic.  Division by zero yields `0` in
  `ℚ` where IEEE arithmetic would produce `NaN`/`inf`; the spec rules
  non-finite inputs out of scope (§6), and no settled claim depends on
  that corner.
* `usize` subtraction is modelled by `wsub`, two-complement
  wrap-around — the semantics of the deployed overflow-checks-off
  (release-profile) build.  For operand values below `2^64` (every
  realizable collection length) `wsub` agrees with the machine.
* the `statrs` distribution objects are modelled by an environment
  `DistEnv` of uninterpreted CDF / inverse-CDF / square-root functions.
  Constructor validity is modelled exactly as in `statrs`:
  `FisherSnedecor::new(d1, d2)` succeeds iff both parameters are
  positive, `StudentsT::new(0.0, 1.0, df)` succeeds iff `df` is
  positive (the inputs, being casts or sums of finite values, are
  never NaN).
* operations that can panic (`unwrap`, `Vec` indexing with an
  out-of-range factor level, `usize` division by zero) are modelled in
  `Option`, with `none` standing for the panic.
* `AnovaSource.df` holds the `f64` degrees-of-freedom value the source
  computes; the narrowing `as i32` the source applies when storing it
  is not modelled (no claim concerns the narrowed copy).
-/

/-- Wrapping `usize` subtraction `a - b`, the release-profile semantics of
the unchecked source casts such as `(n_total - k) as f64`. -/
def wsub (a b : Nat) : Nat := if b ≤ a then a - b else 2 ^ 64 + a - b

/-- Environment of distribution primitives supplied by `statrs` and by the
`f64::sqrt` intrinsic: `fCdf d1 d2 x` is `FisherSnedecor::new(d1,d2).cdf(x)`,
`tCdf df x` is `StudentsT::new(0,1,df).cdf(x)`, `tInv975 df` is
`inverse_cdf(0.975)` of the same, and `sqrt` is `f64::sqrt`. -/
structure DistEnv where
  sqrt : ℚ → ℚ
  fCdf : ℚ → ℚ → ℚ → ℚ
  tCdf : ℚ → ℚ → ℚ
  tInv975 : ℚ → ℚ

/-- Model of `FisherSnedecor::new(d1, d2)`: `Ok` exactly when both
degrees-of-freedom parameters are positive. -/
def fisherNew (d1 d2 : ℚ) : Option (ℚ × ℚ) :=
  if 0 < d1 ∧ 0 < d2 then some (d1, d2) else none

/-- Model of `StudentsT::new(0.0, 1.0, df)`: `Ok` exactly when the
degrees-of-freedom parameter is positive. -/
def studentsTNew (df : ℚ) : Option ℚ :=
  if 0 < df then some df else none

/-- Per-sample mean, `if n > 0 { sum / n as f64 } else { 0.0 }`. -/
def sampleMean (vs : List ℚ) : ℚ :=
  if 0 < vs.length then vs.sum / (vs.length : ℚ) else 0

/-- Row of an ANOVA table (source struct `AnovaSource`; `df` is the
computed `f64` value, see the module comment). -/
structure AnovaSource where
  ss : ℚ
  df : ℚ
  ms : ℚ
  f : Option ℚ
  p : Option ℚ
  deriving DecidableEq

/-- Result record of `one_way_anova` (source struct `AnovaResult`). -/
structure AnovaResult where
  source_between : AnovaSource
  source_within : AnovaSource
  source_total : AnovaSource
  r_squared : ℚ
  is_significant_05 : Bool
  is_significant_01 : Bool
  group_means : List ℚ
  group_sizes : List Nat
  grand_mean : ℚ
  deriving DecidableEq

/-- Model of `StatisticalAnalysis::one_way_anova`.  The accumulation loops
are rendered as per-group sums (exact `ℚ` addition is order-insensitive).
The one panic site, `FisherSnedecor::new(df_between, df_within).unwrap()`
behind the guard `df_between > 0.0 && df_within > 0.0`, is modelled by the
`Option`: `none` is the panic. -/
def one_way_anova (E : DistEnv) (groups : List (List ℚ)) : Option AnovaResult :=
  let k := groups.length
  let n_total := (groups.map List.length).sum
  let grand_sum := (groups.map List.sum).sum
  let grand_mean := if 0 < n_total then grand_sum / (n_total : ℚ) else 0
  let ssb := (groups.map (fun g => (g.length : ℚ) * (sampleMean g - grand_mean) ^ 2)).sum
  let ssw := (groups.map (fun g => (g.map (fun v => (v - sampleMean g) ^ 2)).sum)).sum
  let sst := ssb + ssw
  let df_between : ℚ := (wsub k 1 : Nat)
  let df_within : ℚ := (wsub n_total k : Nat)
  let df_total : ℚ := (wsub n_total 1 : Nat)
  let msb := if 0 < df_between then ssb / df_between else 0
  let msw := if 0 < df_within then ssw / df_within else 0
  let f_statistic := if 0 < msw then msb / msw else 0
  let pOpt : Option ℚ :=
    if 0 < df_between ∧ 0 < df_within then
      (fisherNew df_between df_within).map (fun fd => 1 - E.fCdf fd.1 fd.2 f_statistic)
    else some 1
  pOpt.map (fun p_value =>
    { source_between :=
        { ss := ssb, df := df_between, ms := msb, f := some f_statistic, p := some p_value }
      source_within := { ss := ssw, df := df_within, ms := msw, f := none, p := none }
      source_total := { ss := sst, df := df_total, ms := 0, f := none, p := none }
      r_squared := if 0 < sst then ssb / sst else 0
      is_significant_05 := decide (p_value < 0.05)
      is_significant_01 := decide (p_value < 0.01)
      group_means := groups.map sampleMean
      group_sizes := groups.map List.length
      grand_mean := grand_mean })

/-- Concrete environment used to evaluate witnesses and counterexamples:
any inhabitant of `DistEnv` will do for the structural claims. -/
def E0 : DistEnv where
  sqrt := fun _ => 0
  fCdf := fun _ _ _ => 0
  tCdf := fun _ _ => 1 / 2
  tInv975 := fun _ => 2

/-- Input of `two_way_anova`: the `HashMap<(usize, usize), Vec<f64>>` of
cells, rendered as its iteration sequence (a list of key–sample pairs).
Map iteration order in a Rust `HashMap` is arbitrary; the list order
models it, which is what lets the order-sensitive read of the
replication count `r` be stated faithfully. -/
abbrev CellData := List ((Nat × Nat) × List ℚ)

/-- Whether the key of a cell addresses a valid factor-level pair; an
out-of-range key makes the `factor_a_sums[*a]` indexing of the accumulation loop
(or `factor_b_sums[*b]`) panic. -/
def cellInRange (aL bL : Nat) (p : (Nat × Nat) × List ℚ) : Bool :=
  p.1.1 < aL && p.1.2 < bL

/-- Total observation count `n_total` accumulated by the cell loop. -/
def nTotal (data : CellData) : Nat := (data.map (fun p => p.2.length)).sum

/-- Grand sum accumulated by the cell loop. -/
def grandSum (data : CellData) : ℚ := (data.map (fun p => p.2.sum)).sum

/-- Level-`i` entry of `factor_a_sums` after the cell loop: every cell with
first key component `i` contributes its sum. -/
def factorASum (data : CellData) (i : Nat) : ℚ :=
  (data.map (fun p => if p.1.1 = i then p.2.sum else 0)).sum

/-- Level-`i` entry of `factor_a_n` after the cell loop. -/
def factorAN (data : CellData) (i : Nat) : Nat :=
  (data.map (fun p => if p.1.1 = i then p.2.length else 0)).sum

/-- Level-`j` entry of `factor_b_sums` after the cell loop. -/
def factorBSum (data : CellData) (j : Nat) : ℚ :=
  (data.map (fun p => if p.1.2 = j then p.2.sum else 0)).sum

/-- Level-`j` entry of `factor_b_n` after the cell loop. -/
def factorBN (data : CellData) (j : Nat) : Nat :=
  (data.map (fun p => if p.1.2 = j then p.2.length else 0)).sum

/-- Marginal mean of A-level `i`, the zip `if *n > 0 { sum / *n } else { 0.0 }`. -/
def factorAMean (data : CellData) (i : Nat) : ℚ :=
  if 0 < factorAN data i then factorASum data i / (factorAN data i : ℚ) else 0

/-- Marginal mean of B-level `j`. -/
def factorBMean (data : CellData) (j : Nat) : ℚ :=
  if 0 < factorBN data j then factorBSum data j / (factorBN data j : ℚ) else 0

/-- Lookup in the `cell_means` map built by the cell loop (`HashMap::get`);
keys of the input map are unique, so first-match lookup is exact. -/
def findCell (l : List ((Nat × Nat) × ℚ)) (key : Nat × Nat) : Option ℚ :=
  match l with
  | [] => none
  | p :: rest => if p.1 = key then some p.2 else findCell rest key

/-- Result record of `two_way_anova` (source struct `TwoWayAnovaResult`).
The `cell_means` field is the `Vec` collected from the map in iteration
order. -/
structure TwoWayAnovaResult where
  factor_a : AnovaSource
  factor_b : AnovaSource
  interaction : AnovaSource
  error : AnovaSource
  total : AnovaSource
  factor_a_means : List ℚ
  factor_b_means : List ℚ
  cell_means : List ((Nat × Nat) × ℚ)
  deriving DecidableEq

/-- Model of `StatisticalAnalysis::f_p_value`: the p-value defaults to 1.0
both when a degrees-of-freedom parameter is non-positive and when the
`FisherSnedecor` constructor fails (`if let Ok(..)` falls through). -/
def f_p_value (E : DistEnv) (f df1 df2 : ℚ) : ℚ :=
  if 0 < df1 ∧ 0 < df2 then
    match fisherNew df1 df2 with
    | some fd => 1 - E.fCdf fd.1 fd.2 f
    | none => 1
  else 1

/-- Replication count read by `two_way_anova`:
`data.values().next().map(|v| v.len()).unwrap_or(1)`, the sample length
of whichever cell the map iteration yields first — an order-dependent
read (`usize`-valued, no floating point involved). -/
def replicationOf (data : CellData) : Nat :=
  ((data.head?).map (fun p => p.2.length)).getD 1

/-- Model of `StatisticalAnalysis::two_way_anova`.  The accumulation loop
over `data` is rendered as per-level sums (exact `ℚ` addition makes the
iteration order of the sums irrelevant); it panics — modelled `none` —
exactly when some key is out of range of the `factor_a_sums` /
`factor_b_sums` vectors, or when a level count is zero (then
`factor_a_n.iter().sum() / factor_a_levels` divides `usize` by zero).
The replication count `r` is read from the first cell the map yields
(`data.values().next()`), an order-dependent read. -/
def two_way_anova (E : DistEnv) (data : CellData) (aL bL : Nat) :
    Option TwoWayAnovaResult :=
  if aL = 0 ∨ bL = 0 ∨ ¬ (data.all (cellInRange aL bL) = true) then none
  else
    let n_total := nTotal data
    let grand_mean := if 0 < n_total then grandSum data / (n_total : ℚ) else 0
    let cell_means := data.map (fun p => (p.1, sampleMean p.2))
    let n_per_a := ((List.range aL).map (factorAN data)).sum / aL
    let n_per_b := ((List.range bL).map (factorBN data)).sum / bL
    let ss_a := ((List.range aL).map
      (fun i => (n_per_a : ℚ) * (factorAMean data i - grand_mean) ^ 2)).sum
    let ss_b := ((List.range bL).map
      (fun j => (n_per_b : ℚ) * (factorBMean data j - grand_mean) ^ 2)).sum
    let ss_total := (data.map (fun p => (p.2.map (fun v => (v - grand_mean) ^ 2)).sum)).sum
    let r := replicationOf data
    let ss_ab := ((List.range aL).map (fun a =>
      ((List.range bL).map (fun b =>
        match findCell cell_means (a, b) with
        | some cm =>
            (r : ℚ) * (cm - (factorAMean data a + factorBMean data b - grand_mean)) ^ 2
        | none => 0)).sum)).sum
    let ss_error := ss_total - ss_a - ss_b - ss_ab
    let df_a : ℚ := ((aL - 1 : Nat) : ℚ)
    let df_b : ℚ := ((bL - 1 : Nat) : ℚ)
    let df_ab := df_a * df_b
    let df_error : ℚ := (wsub n_total (aL * bL) : Nat)
    let df_total : ℚ := (wsub n_total 1 : Nat)
    let ms_a := if 0 < df_a then ss_a / df_a else 0
    let ms_b := if 0 < df_b then ss_b / df_b else 0
    let ms_ab := if 0 < df_ab then ss_ab / df_ab else 0
    let ms_error := if 0 < df_error then ss_error / df_error else 0
    let f_a := if 0 < ms_error then ms_a / ms_error else 0
    let f_b := if 0 < ms_error then ms_b / ms_error else 0
    let f_ab := if 0 < ms_error then ms_ab / ms_error else 0
    some
      { factor_a :=
          { ss := ss_a, df := df_a, ms := ms_a, f := some f_a
            p := some (f_p_value E f_a df_a df_error) }
        factor_b :=
          { ss := ss_b, df := df_b, ms := ms_b, f := some f_b
            p := some (f_p_value E f_b df_b df_error) }
        interaction :=
          { ss := ss_ab, df := df_ab, ms := ms_ab, f := some f_ab
            p := some (f_p_value E f_ab df_ab df_error) }
        error := { ss := ss_error, df := df_error, ms := ms_error, f := none, p := none }
        total := { ss := ss_total, df := df_total, ms := 0, f := none, p := none }
        factor_a_means := (List.range aL).map (factorAMean data)
        factor_b_means := (List.range bL).map (factorBMean data)
        cell_means := cell_means }

/-- Result record of `t_test` (source struct `TTestResult`). -/
structure TTestResult where
  t_statistic : ℚ
  p_value : ℚ
  df : ℚ
  mean_difference : ℚ
  ci_lower : ℚ
  ci_upper : ℚ
  is_significant : Bool
  deriving DecidableEq

/-- Paired branch of `t_test`: per-index differences, their mean and
Bessel-corrected variance, `t = mean_d / se_d` guarded by `se_d > 0`;
yields `(t, df, mean_difference)` with `df = n - 1`. -/
def pairedStats (E : DistEnv) (g1 g2 : List ℚ) : ℚ × ℚ × ℚ :=
  let differences := List.zipWith (fun a b => a - b) g1 g2
  let n : ℚ := differences.length
  let mean_d := differences.sum / n
  let var_d := (differences.map (fun d => (d - mean_d) ^ 2)).sum / (n - 1)
  let se_d := E.sqrt (var_d / n)
  let t := if 0 < se_d then mean_d / se_d else 0
  (t, n - 1, mean_d)

/-- Welch branch of `t_test`: unequal-variance statistic with
Welch–Satterthwaite degrees of freedom, falling back to `n1 + n2 - 2`
when the denominator is zero; yields `(t, df, mean_difference)`. -/
def welchStats (E : DistEnv) (g1 g2 : List ℚ) : ℚ × ℚ × ℚ :=
  let n1 : ℚ := g1.length
  let n2 : ℚ := g2.length
  let mean1 := g1.sum / n1
  let mean2 := g2.sum / n2
  let var1 := (g1.map (fun x => (x - mean1) ^ 2)).sum / (n1 - 1)
  let var2 := (g2.map (fun x => (x - mean2) ^ 2)).sum / (n2 - 1)
  let se := E.sqrt (var1 / n1 + var2 / n2)
  let t := if 0 < se then (mean1 - mean2) / se else 0
  let num := (var1 / n1 + var2 / n2) ^ 2
  let denom := (var1 / n1) ^ 2 / (n1 - 1) + (var2 / n2) ^ 2 / (n2 - 1)
  let df := if 0 < denom then num / denom else n1 + n2 - 2
  (t, df, mean1 - mean2)

/-- Critical value used for the 95% CI:
`StudentsT::new(0.0, 1.0, df).map(|d| d.inverse_cdf(0.975)).unwrap_or(1.96)`
behind the source guard `if df > 0.0`, else `1.96`. -/
def tCritOf (E : DistEnv) (df : ℚ) : ℚ :=
  if 0 < df then ((studentsTNew df).map (fun d => E.tInv975 d)).getD 1.96 else 1.96

/-- Model of `StatisticalAnalysis::t_test`.  A paired call on samples of
unequal length returns the neutral record at once; otherwise the branch
statistics feed a two-tailed p-value and the back-derived 95% CI
(`se = mean_diff / t_stat` when `t_stat != 0.0`, else `0.0`). -/
def t_test (E : DistEnv) (g1 g2 : List ℚ) (paired : Bool) : TTestResult :=
  if paired = true ∧ g1.length ≠ g2.length then
    { t_statistic := 0, p_value := 1, df := 0, mean_difference := 0
      ci_lower := 0, ci_upper := 0, is_significant := false }
  else
    let tdm := if paired = true then pairedStats E g1 g2 else welchStats E g1 g2
    let t_stat := tdm.1
    let df := tdm.2.1
    let mean_diff := tdm.2.2
    let p_value :=
      if 0 < df then
        match studentsTNew df with
        | some d => 2 * (1 - E.tCdf d |t_stat|)
        | none => 1
      else 1
    let t_crit := tCritOf E df
    let se := if t_stat ≠ 0 then mean_diff / t_stat else 0
    { t_statistic := t_stat
      p_value := p_value
      df := df
      mean_difference := mean_diff
      ci_lower := mean_diff - t_crit * se
      ci_upper := mean_diff + t_crit * se
      is_significant := decide (p_value < 0.05) }

/-- Result record of one pairwise contrast (source struct `LSDComparison`). -/
structure LSDComparison where
  group_i : Nat
  group_j : Nat
  mean_difference : ℚ
  std_error : ℚ
  t_statistic : ℚ
  p_value : ℚ
  lsd : ℚ
  is_significant : Bool
  deriving DecidableEq

/-- Index pairs visited by the nested loops
`for i in 0..k { for j in (i + 1)..k { .. } }`. -/
def lsdPairs (k : Nat) : List (Nat × Nat) :=
  (List.range k).flatMap (fun i =>
    (List.range' (i + 1) (k - (i + 1))).map (fun j => (i, j)))

/-- Body of the `lsd_test` loop for the pair `(i, j)`; the loop indices are
always in bounds, so `groups[i]` is rendered total with `getD`. -/
def lsdCompare (E : DistEnv) (groups : List (List ℚ)) (mse df_error : ℚ)
    (i j : Nat) : LSDComparison :=
  let gi := groups.getD i []
  let gj := groups.getD j []
  let n1 : ℚ := gi.length
  let n2 : ℚ := gj.length
  let mean1 := gi.sum / n1
  let mean2 := gj.sum / n2
  let mean_diff := mean1 - mean2
  let se := E.sqrt (mse * (1 / n1 + 1 / n2))
  let t := if 0 < se then mean_diff / se else 0
  let p_value :=
    if 0 < df_error then
      ((studentsTNew df_error).map (fun d => 2 * (1 - E.tCdf d |t|))).getD 1
    else 1
  let t_crit := ((studentsTNew df_error).map (fun d => E.tInv975 d)).getD 1.96
  let lsd := t_crit * se
  { group_i := i, group_j := j, mean_difference := mean_diff, std_error := se
    t_statistic := t, p_value := p_value, lsd := lsd
    is_significant := decide (lsd < |mean_diff|) }

/-- Model of `StatisticalAnalysis::lsd_test`: the nested pair loops mapped
over the comparison body. -/
def lsd_test (E : DistEnv) (groups : List (List ℚ)) (mse df_error : ℚ) :
    List LSDComparison :=
  (lsdPairs groups.length).map (fun p => lsdCompare E groups mse df_error p.1 p.2)

/-- Recovery of the `some` equation from a defaulted read: used to
discharge `= some r` hypotheses at concrete inputs without normalizing
any rational arithmetic. -/
lemma eq_some_getD {α : Type} (o : Option α) (d : α) (h : o.isSome = true) :
    o = some (o.getD d) := by
  cases o with
  | none => cases h
  | some a => rfl

/-- Placeholder record used only to evaluate a defaulted `Option.getD`. -/
def anovaDefault : AnovaResult :=
  ⟨⟨0, 0, 0, none, none⟩, ⟨0, 0, 0, none, none⟩, ⟨0, 0, 0, none, none⟩,
    0, false, false, [], [], 0⟩

/-- Placeholder record used only to evaluate a defaulted `Option.getD`. -/
def twoWayDefault : TwoWayAnovaResult :=
  ⟨⟨0, 0, 0, none, none⟩, ⟨0, 0, 0, none, none⟩, ⟨0, 0, 0, none, none⟩,
    ⟨0, 0, 0, none, none⟩, ⟨0, 0, 0, none, none⟩, [], [], []⟩

/-- C3: a paired t-test on samples of unequal length returns the neutral
record — `t_statistic = 0`, `p_value = 1`, `df = 0`, `mean_difference = 0`,
`ci_lower = ci_upper = 0`, `is_significant = false` — instead of failing. -/
theorem t_test_paired_unequal_neutral (E : DistEnv) (g1 g2 : List ℚ)
    (h : g1.length ≠ g2.length) :
    t_test E g1 g2 true =
      { t_statistic := 0, p_value := 1, df := 0, mean_difference := 0
        ci_lower := 0, ci_upper := 0, is_significant := false } := by
  unfold t_test
  rw [if_pos ⟨rfl, h⟩]

/-- Witness for C3 at the concrete unequal-length input `[1]`, `[]`. -/
theorem t_test_paired_unequal_neutral_witness :
    t_test E0 [1] [] true =
      { t_statistic := 0, p_value := 1, df := 0, mean_difference := 0
        ci_lower := 0, ci_upper := 0, is_significant := false } :=
  t_test_paired_unequal_neutral E0 [1] [] (by decide)

/-- C4: every t-test result carries the back-derived 95% confidence
interval `mean_difference ∓ t_crit · se` with
`se = mean_difference / t_statistic` when the statistic is nonzero and
`se = 0` otherwise, so a zero statistic collapses the interval to the
point estimate. -/
theorem t_test_ci_back_derived (E : DistEnv) (g1 g2 : List ℚ) (paired : Bool) :
    ((t_test E g1 g2 paired).ci_lower =
        (t_test E g1 g2 paired).mean_difference -
          tCritOf E (t_test E g1 g2 paired).df *
            (if (t_test E g1 g2 paired).t_statistic = 0 then 0
             else (t_test E g1 g2 paired).mean_difference /
               (t_test E g1 g2 paired).t_statistic) ∧
      (t_test E g1 g2 paired).ci_upper =
        (t_test E g1 g2 paired).mean_difference +
          tCritOf E (t_test E g1 g2 paired).df *
            (if (t_test E g1 g2 paired).t_statistic = 0 then 0
             else (t_test E g1 g2 paired).mean_difference /
               (t_test E g1 g2 paired).t_statistic)) ∧
    ((t_test E g1 g2 paired).t_statistic = 0 →
      (t_test E g1 g2 paired).ci_lower = (t_test E g1 g2 paired).mean_difference ∧
      (t_test E g1 g2 paired).ci_upper = (t_test E g1 g2 paired).mean_difference) := by
  unfold t_test
  split
  · refine ⟨⟨?_, ?_⟩, fun _ => ⟨rfl, rfl⟩⟩ <;> simp
  · by_cases ht : (if paired = true then pairedStats E g1 g2 else welchStats E g1 g2).1 = 0 <;>
      simp [ht]

/-- Witness for C4 at the concrete input `[1]`, `[1]`, paired; the
t-statistic is `0` there and the interval collapses. -/
theorem t_test_ci_back_derived_witness :
    (t_test E0 [1] [1] true).t_statistic = 0 ∧
      (t_test E0 [1] [1] true).ci_lower = (t_test E0 [1] [1] true).mean_difference ∧
      (t_test E0 [1] [1] true).ci_upper = (t_test E0 [1] [1] true).mean_difference :=
  ⟨by decide, (t_test_ci_back_derived E0 [1] [1] true).2 (by decide)⟩

/-- Arithmetic core of C9: the ratio `A / (A + B)` guarded by `0 < A + B`
lies in the unit interval whenever `A` and `B` are nonnegative. -/
lemma rsq_bounds_aux (A B : ℚ) (hA : 0 ≤ A) (hB : 0 ≤ B) :
    0 ≤ (if 0 < A + B then A / (A + B) else 0) ∧
      (if 0 < A + B then A / (A + B) else 0) ≤ 1 := by
  split
  · rename_i hpos
    exact ⟨div_nonneg hA hpos.le, (div_le_one hpos).mpr (le_add_of_nonneg_right hB)⟩
  · exact ⟨le_refl 0, zero_le_one⟩

/-- C9: the coefficient of determination reported by `one_way_anova` lies
in `[0, 1]`: SSB and SSW are sums of squares, hence nonnegative, and
`SST = SSB + SSW ≥ SSB`; when `SST = 0` the guard yields `0`. -/
theorem anova_r_squared_bounds (E : DistEnv) (groups : List (List ℚ))
    (r : AnovaResult) (h : one_way_anova E groups = some r) :
    0 ≤ r.r_squared ∧ r.r_squared ≤ 1 := by
  simp only [one_way_anova, Option.map_eq_some'] at h
  obtain ⟨p, hp, rfl⟩ := h
  refine rsq_bounds_aux _ _ (List.sum_nonneg ?_) (List.sum_nonneg ?_)
  · intro x hx
    obtain ⟨g, hg, rfl⟩ := List.mem_map.mp hx
    exact mul_nonneg (Nat.cast_nonneg _) (sq_nonneg _)
  · intro x hx
    obtain ⟨g, hg, rfl⟩ := List.mem_map.mp hx
    refine List.sum_nonneg ?_
    intro y hy
    obtain ⟨v, hv, rfl⟩ := List.mem_map.mp hy
    exact sq_nonneg _

/-- Witness for C9 at a concrete one-way run. -/
theorem anova_r_squared_bounds_witness :
    0 ≤ ((one_way_anova E0 [[1, 2], [4]]).getD anovaDefault).r_squared ∧
      ((one_way_anova E0 [[1, 2], [4]]).getD anovaDefault).r_squared ≤ 1 :=
  anova_r_squared_bounds E0 [[1, 2], [4]] _ (eq_some_getD _ _ (by decide))

/-- Arithmetic core of the C1 degrees-of-freedom identity at the level of
wrapping `usize` subtraction: it holds when the operands are machine-sized
and either every observation count covers the groups or there are no
observations at all. -/
lemma wsub_df_identity (k n : Nat) (hk : k < 2 ^ 64) (hn : n < 2 ^ 64)
    (h : (1 ≤ k ∧ k ≤ n) ∨ n = 0) :
    ((wsub k 1 : Nat) : ℚ) + ((wsub n k : Nat) : ℚ) = ((wsub n 1 : Nat) : ℚ) := by
  have hnat : wsub k 1 + wsub n k = wsub n 1 := by
    unfold wsub
    split_ifs <;> omega
  rw [← Nat.cast_add, hnat]

/-- C1 (amended): `SST = SSB + SSW` holds for every input, exactly, because
the total is computed as the sum; the degrees-of-freedom identity
`df_between + df_within = df_total` holds whenever the total observation
count is at least the number of groups, or is zero — for machine-sized
inputs — but not universally (see the counterexample). -/
theorem anova_ss_df_identity (E : DistEnv) (groups : List (List ℚ))
    (r : AnovaResult) (h : one_way_anova E groups = some r) :
    r.source_total.ss = r.source_between.ss + r.source_within.ss ∧
    ((r.group_sizes.length ≤ r.group_sizes.sum ∨ r.group_sizes.sum = 0) →
      r.group_sizes.length < 2 ^ 64 → r.group_sizes.sum < 2 ^ 64 →
      r.source_between.df + r.source_within.df = r.source_total.df) := by
  simp only [one_way_anova, Option.map_eq_some'] at h
  obtain ⟨p, hp, rfl⟩ := h
  refine ⟨rfl, ?_⟩
  intro hcond hk hn
  simp only [List.length_map] at hk hcond
  refine wsub_df_identity groups.length ((groups.map List.length).sum) hk hn ?_
  rcases hcond with hkn | hn0
  · by_cases hz : (groups.map List.length).sum = 0
    · exact Or.inr hz
    · refine Or.inl ⟨?_, hkn⟩
      cases groups with
      | nil => simp at hz
      | cons g gs => simp
  · exact Or.inr hn0

/-- Witness for C1 at the concrete input `[[1], [2], [4]]`. -/
theorem anova_ss_df_identity_witness :
    ((one_way_anova E0 [[1], [2], [4]]).getD anovaDefault).source_total.ss =
        ((one_way_anova E0 [[1], [2], [4]]).getD anovaDefault).source_between.ss +
          ((one_way_anova E0 [[1], [2], [4]]).getD anovaDefault).source_within.ss ∧
      ((one_way_anova E0 [[1], [2], [4]]).getD anovaDefault).source_between.df +
          ((one_way_anova E0 [[1], [2], [4]]).getD anovaDefault).source_within.df =
        ((one_way_anova E0 [[1], [2], [4]]).getD anovaDefault).source_total.df :=
  ⟨(anova_ss_df_identity E0 [[1], [2], [4]] _ (eq_some_getD _ _ (by decide))).1,
    (anova_ss_df_identity E0 [[1], [2], [4]] _ (eq_some_getD _ _ (by decide))).2
      (by decide) (by decide) (by decide)⟩

/-- Counterexample to C1 as stated: on `[[0], [], []]` (three groups, one
observation) the wrapped `df_within = 1 - 3` makes
`df_between + df_within ≠ df_total`. -/
theorem anova_df_identity_cex :
    one_way_anova E0 [[0], [], []] =
        some ((one_way_anova E0 [[0], [], []]).getD anovaDefault) ∧
      ((one_way_anova E0 [[0], [], []]).getD anovaDefault).source_between.df +
          ((one_way_anova E0 [[0], [], []]).getD anovaDefault).source_within.df ≠
        ((one_way_anova E0 [[0], [], []]).getD anovaDefault).source_total.df := by
  refine ⟨eq_some_getD _ _ (by decide), ?_⟩
  show ((wsub 3 1 : Nat) : ℚ) + ((wsub 1 3 : Nat) : ℚ) ≠ ((wsub 1 1 : Nat) : ℚ)
  norm_num [wsub]

/-- C2: no condition inside the engine is fatal — for any groups (at least
one, possibly all empty) `one_way_anova` returns a record, and for any
cell mapping whose keys address valid levels, with both level counts at
least one, `two_way_anova` returns a record; in particular a total
observation count of zero, or smaller than the number of groups or of
cells, is not fatal. -/
theorem engine_never_fatal (E : DistEnv) :
    (∀ groups : List (List ℚ), 1 ≤ groups.length →
      ∃ r, one_way_anova E groups = some r) ∧
    (∀ (data : CellData) (aL bL : Nat), 1 ≤ aL → 1 ≤ bL →
      (data.map Prod.fst).Nodup →
      (∀ p ∈ data, p.1.1 < aL ∧ p.1.2 < bL) →
      ∃ r, two_way_anova E data aL bL = some r) := by
  constructor
  · intro groups _
    simp only [one_way_anova]
    rw [← Option.isSome_iff_exists, Option.isSome_map']
    split
    · rename_i hc
      rw [fisherNew, if_pos hc]
      rfl
    · rfl
  · intro data aL bL haL hbL _ hin
    unfold two_way_anova
    rw [if_neg]
    · exact ⟨_, rfl⟩
    · push_neg
      refine ⟨by omega, by omega, ?_⟩
      rw [List.all_eq_true]
      intro p hp
      have := hin p hp
      simp [cellInRange, this.1, this.2]

/-- Witness for C2: a one-way input with an empty group and fewer
observations than groups, and a partial 2×2 mapping with an empty cell. -/
theorem engine_never_fatal_witness :
    (∃ r, one_way_anova E0 [[1], [], []] = some r) ∧
      ∃ r, two_way_anova E0 [((0, 0), [1]), ((1, 1), [])] 2 2 = some r :=
  ⟨(engine_never_fatal E0).1 [[1], [], []] (by decide),
    (engine_never_fatal E0).2 [((0, 0), [1]), ((1, 1), [])] 2 2 (by decide) (by decide)
      (by decide) (by decide)⟩

/-- C7: in `two_way_anova` each of the three p-values is produced by
`f_p_value` from the corresponding F-statistic and degrees-of-freedom
pair, and `f_p_value` equals `1 - F_cdf(f, d1, d2)` when both parameters
are positive and defaults to `1` otherwise — a failed distribution
construction is never propagated as an error. -/
theorem two_way_p_value_policy (E : DistEnv) (data : CellData) (aL bL : Nat)
    (r : TwoWayAnovaResult) (h : two_way_anova E data aL bL = some r) :
    (∃ fa, r.factor_a.f = some fa ∧
      r.factor_a.p = some (f_p_value E fa r.factor_a.df r.error.df)) ∧
    (∃ fb, r.factor_b.f = some fb ∧
      r.factor_b.p = some (f_p_value E fb r.factor_b.df r.error.df)) ∧
    (∃ fab, r.interaction.f = some fab ∧
      r.interaction.p = some (f_p_value E fab r.interaction.df r.error.df)) ∧
    (∀ f d1 d2 : ℚ,
      f_p_value E f d1 d2 = if 0 < d1 ∧ 0 < d2 then 1 - E.fCdf d1 d2 f else 1) := by
  unfold two_way_anova at h
  split at h
  · exact Option.noConfusion h
  · obtain rfl := Option.some.inj h
    refine ⟨⟨_, rfl, rfl⟩, ⟨_, rfl, rfl⟩, ⟨_, rfl, rfl⟩, ?_⟩
    intro f d1 d2
    unfold f_p_value fisherNew
    split_ifs <;> rfl

/-- Witness for C7 at a concrete balanced 2×2 run. -/
theorem two_way_p_value_policy_witness :
    (∃ fa, ((two_way_anova E0 [((0, 0), [1]), ((0, 1), [2]), ((1, 0), [3]),
          ((1, 1), [5])] 2 2).getD twoWayDefault).factor_a.f = some fa ∧
      ((two_way_anova E0 [((0, 0), [1]), ((0, 1), [2]), ((1, 0), [3]),
          ((1, 1), [5])] 2 2).getD twoWayDefault).factor_a.p =
        some (f_p_value E0 fa
          ((two_way_anova E0 [((0, 0), [1]), ((0, 1), [2]), ((1, 0), [3]),
              ((1, 1), [5])] 2 2).getD twoWayDefault).factor_a.df
          ((two_way_anova E0 [((0, 0), [1]), ((0, 1), [2]), ((1, 0), [3]),
              ((1, 1), [5])] 2 2).getD twoWayDefault).error.df)) ∧
    (∃ fb, ((two_way_anova E0 [((0, 0), [1]), ((0, 1), [2]), ((1, 0), [3]),
          ((1, 1), [5])] 2 2).getD twoWayDefault).factor_b.f = some fb ∧
      ((two_way_anova E0 [((0, 0), [1]), ((0, 1), [2]), ((1, 0), [3]),
          ((1, 1), [5])] 2 2).getD twoWayDefault).factor_b.p =
        some (f_p_value E0 fb
          ((two_way_anova E0 [((0, 0), [1]), ((0, 1), [2]), ((1, 0), [3]),
              ((1, 1), [5])] 2 2).getD twoWayDefault).factor_b.df
          ((two_way_anova E0 [((0, 0), [1]), ((0, 1), [2]), ((1, 0), [3]),
              ((1, 1), [5])] 2 2).getD twoWayDefault).error.df)) ∧
    (∃ fab, ((two_way_anova E0 [((0, 0), [1]), ((0, 1), [2]), ((1, 0), [3]),
          ((1, 1), [5])] 2 2).getD twoWayDefault).interaction.f = some fab ∧
      ((two_way_anova E0 [((0, 0), [1]), ((0, 1), [2]), ((1, 0), [3]),
          ((1, 1), [5])] 2 2).getD twoWayDefault).interaction.p =
        some (f_p_value E0 fab
          ((two_way_anova E0 [((0, 0), [1]), ((0, 1), [2]), ((1, 0), [3]),
              ((1, 1), [5])] 2 2).getD twoWayDefault).interaction.df
          ((two_way_anova E0 [((0, 0), [1]), ((0, 1), [2]), ((1, 0), [3]),
              ((1, 1), [5])] 2 2).getD twoWayDefault).error.df)) ∧
    (∀ f d1 d2 : ℚ,
      f_p_value E0 f d1 d2 = if 0 < d1 ∧ 0 < d2 then 1 - E0.fCdf d1 d2 f else 1) :=
  two_way_p_value_policy E0
    [((0, 0), [1]), ((0, 1), [2]), ((1, 0), [3]), ((1, 1), [5])] 2 2 _
    (eq_some_getD _ _ (by decide))

/-- Bridge from sums over `List.range` to `Finset.range`. -/
lemma list_range_map_sum (k : Nat) (f : Nat → Nat) :
    ((List.range k).map f).sum = ∑ i in Finset.range k, f i := by
  induction k with
  | zero => simp
  | succ m ih =>
    rw [Finset.sum_range_succ, List.range_succ, List.map_append, List.sum_append, ih]
    simp

/-- Membership in the loop pair enumeration: exactly the pairs `(i, j)`
with `i < j < k`. -/
lemma mem_lsdPairs (k : Nat) (p : Nat × Nat) :
    p ∈ lsdPairs k ↔ p.1 < p.2 ∧ p.2 < k := by
  obtain ⟨a, b⟩ := p
  unfold lsdPairs
  rw [List.mem_flatMap]
  constructor
  · rintro ⟨i, hi, hp⟩
    obtain ⟨j, hj, hjp⟩ := List.mem_map.mp hp
    obtain ⟨rfl, rfl⟩ := Prod.mk.injEq .. ▸ hjp
    rw [List.mem_range] at hi
    rw [List.mem_range'_1] at hj
    exact ⟨by omega, by omega⟩
  · rintro ⟨h1, h2⟩
    refine ⟨a, by rw [List.mem_range]; omega, ?_⟩
    rw [List.mem_map]
    exact ⟨b, by rw [List.mem_range'_1]; omega, rfl⟩

/-- Count of the loop pair enumeration: `k·(k−1)/2`. -/
lemma length_lsdPairs (k : Nat) : (lsdPairs k).length = k * (k - 1) / 2 := by
  unfold lsdPairs
  rw [List.length_flatMap]
  simp only [Function.comp_def, List.length_map, List.length_range']
  rw [list_range_map_sum]
  have hf : ∑ i in Finset.range k, (k - (i + 1)) = ∑ i in Finset.range k, (k - 1 - i) :=
    Finset.sum_congr rfl (fun i _ => by omega)
  rw [hf, Finset.sum_range_reflect (fun i => i) k, Finset.sum_range_id]

/-- Pairwise property distributes over `flatMap` when every block is
internally pairwise and blocks are pairwise related elementwise. -/
lemma pairwise_flatMap {α β : Type} {R : β → β → Prop} {f : α → List β} :
    ∀ {l : List α}, (∀ a ∈ l, (f a).Pairwise R) →
      l.Pairwise (fun a b => ∀ x ∈ f a, ∀ y ∈ f b, R x y) →
      (l.flatMap f).Pairwise R := by
  intro l
  induction l with
  | nil => intro _ _; simp
  | cons a t ih =>
    intro h1 h2
    rw [List.flatMap_cons, List.pairwise_append]
    refine ⟨h1 a (List.mem_cons_self a t),
      ih (fun b hb => h1 b (List.mem_cons_of_mem a hb)) (List.Pairwise.of_cons h2), ?_⟩
    intro x hx y hy
    obtain ⟨b, hb, hyb⟩ := List.mem_flatMap.mp hy
    exact List.rel_of_pairwise_cons h2 hb x hx y hyb

/-- Strict lexicographic order on index pairs. -/
def pairLexLt (p q : Nat × Nat) : Prop :=
  p.1 < q.1 ∨ (p.1 = q.1 ∧ p.2 < q.2)

/-- The loop pair enumeration is strictly ascending in lexicographic
order. -/
lemma pairwise_lsdPairs (k : Nat) : (lsdPairs k).Pairwise pairLexLt := by
  unfold lsdPairs
  apply pairwise_flatMap
  · intro i _
    refine List.Pairwise.map _ ?_ (List.pairwise_lt_range' (i + 1) (k - (i + 1)))
    intro a b hab
    exact Or.inr ⟨rfl, hab⟩
  · refine List.Pairwise.imp ?_ (List.pairwise_lt_range k)
    intro i i' hlt x hx y hy
    obtain ⟨j, hj, rfl⟩ := List.mem_map.mp hx
    obtain ⟨j', hj', rfl⟩ := List.mem_map.mp hy
    exact Or.inl hlt

/-- The index pairs carried by the comparisons are exactly the loop pair
enumeration. -/
lemma lsd_test_map_pairs (E : DistEnv) (groups : List (List ℚ)) (mse dfe : ℚ) :
    (lsd_test E groups mse dfe).map (fun c => (c.group_i, c.group_j)) =
      lsdPairs groups.length := by
  unfold lsd_test
  rw [List.map_map]
  have hcomp : ((fun c => (c.group_i, c.group_j)) ∘
      fun p : Nat × Nat => lsdCompare E groups mse dfe p.1 p.2) =
      fun p : Nat × Nat => (p.1, p.2) := rfl
  rw [hcomp]
  have hid : (fun p : Nat × Nat => (p.1, p.2)) = id := funext fun p => rfl
  rw [hid, List.map_id]

/-- C5: `lsd_test` on `k` groups returns exactly `k·(k−1)/2` comparisons,
carrying every pair `i < j < k` exactly once, enumerated in ascending
lexicographic `(i, j)` order. -/
theorem lsd_test_enumeration (E : DistEnv) (groups : List (List ℚ)) (mse dfe : ℚ) :
    (lsd_test E groups mse dfe).length = groups.length * (groups.length - 1) / 2 ∧
    ((lsd_test E groups mse dfe).map (fun c => (c.group_i, c.group_j))).Pairwise pairLexLt ∧
    (∀ c ∈ lsd_test E groups mse dfe, c.group_i < c.group_j ∧ c.group_j < groups.length) ∧
    (∀ i j : Nat, i < j → j < groups.length →
      (i, j) ∈ (lsd_test E groups mse dfe).map (fun c => (c.group_i, c.group_j))) := by
  refine ⟨?_, ?_, ?_, ?_⟩
  · rw [lsd_test, List.length_map, length_lsdPairs]
  · rw [lsd_test_map_pairs]
    exact pairwise_lsdPairs _
  · intro c hc
    simp only [lsd_test] at hc
    obtain ⟨p, hp, rfl⟩ := List.mem_map.mp hc
    exact (mem_lsdPairs _ _).mp hp
  · intro i j hij hjk
    rw [lsd_test_map_pairs]
    exact (mem_lsdPairs _ _).mpr ⟨hij, hjk⟩

/-- Witness for C5: three groups give three comparisons and contain the
pair `(0, 2)`. -/
theorem lsd_test_enumeration_witness :
    (lsd_test E0 [[1], [2], [3]] 1 1).length = 3 ∧
      ((0 : Nat), (2 : Nat)) ∈
        (lsd_test E0 [[1], [2], [3]] 1 1).map (fun c => (c.group_i, c.group_j)) :=
  ⟨by rw [(lsd_test_enumeration E0 [[1], [2], [3]] 1 1).1]; decide,
    (lsd_test_enumeration E0 [[1], [2], [3]] 1 1).2.2.2 0 2 (by decide) (by decide)⟩

/-- C6: every comparison produced by `lsd_test` sets `is_significant` by
the threshold test `|mean_difference| > lsd` alone — in particular it is a
function of the `mean_difference` and `lsd` fields only, independent of
the p-value field of the comparison. -/
theorem lsd_significance_threshold (E : DistEnv) (groups : List (List ℚ)) (mse dfe : ℚ) :
    ∀ c ∈ lsd_test E groups mse dfe,
      c.is_significant = decide (c.lsd < |c.mean_difference|) := by
  intro c hc
  simp only [lsd_test] at hc
  obtain ⟨p, hp, rfl⟩ := List.mem_map.mp hc
  rfl

/-- Witness for C6 at the concrete two-group input. -/
theorem lsd_significance_threshold_witness :
    (lsdCompare E0 [[1], [2]] 1 1 0 1).is_significant =
      decide ((lsdCompare E0 [[1], [2]] 1 1 0 1).lsd <
        |(lsdCompare E0 [[1], [2]] 1 1 0 1).mean_difference|) :=
  lsd_significance_threshold E0 [[1], [2]] 1 1 _ (List.mem_singleton_self _)

/-- Sum of a constant sample. -/
lemma sum_of_all_eq (l : List ℚ) (c : ℚ) (h : ∀ x ∈ l, x = c) :
    l.sum = l.length * c := by
  induction l with
  | nil => simp
  | cons a t ih =>
    rw [List.sum_cons, ih (fun x hx => h x (List.mem_cons_of_mem a hx)),
      h a (List.mem_cons_self a t), List.length_cons]
    push_cast
    ring

/-- Mean of a nonempty constant sample. -/
lemma mean_of_all_eq (l : List ℚ) (c : ℚ) (h : ∀ x ∈ l, x = c)
    (h0 : 0 < l.length) : l.sum / (l.length : ℚ) = c := by
  rw [sum_of_all_eq l c h]
  rw [mul_comm, mul_div_assoc, div_self (by exact_mod_cast Nat.pos_iff_ne_zero.mp h0), mul_one]

/-- On two constant samples the Welch branch degenerates: zero statistic,
fallback degrees of freedom `n1 + n2 - 2`, difference of the constants. -/
lemma welchStats_zero_variance (E : DistEnv) (g1 g2 : List ℚ) (c1 c2 : ℚ)
    (h1 : 2 ≤ g1.length) (h2 : 2 ≤ g2.length)
    (hc1 : ∀ x ∈ g1, x = c1) (hc2 : ∀ x ∈ g2, x = c2)
    (hs : E.sqrt 0 = 0) :
    welchStats E g1 g2 = (0, (g1.length : ℚ) + (g2.length : ℚ) - 2, c1 - c2) := by
  have hm1 : g1.sum / (g1.length : ℚ) = c1 := mean_of_all_eq g1 c1 hc1 (by omega)
  have hm2 : g2.sum / (g2.length : ℚ) = c2 := mean_of_all_eq g2 c2 hc2 (by omega)
  have hv1 : (g1.map (fun x => (x - c1) ^ 2)).sum = 0 := by
    rw [sum_of_all_eq (g1.map (fun x => (x - c1) ^ 2)) 0 ?_, mul_zero]
    intro y hy
    obtain ⟨x, hx, rfl⟩ := List.mem_map.mp hy
    rw [hc1 x hx, sub_self]
    ring
  have hv2 : (g2.map (fun x => (x - c2) ^ 2)).sum = 0 := by
    rw [sum_of_all_eq (g2.map (fun x => (x - c2) ^ 2)) 0 ?_, mul_zero]
    intro y hy
    obtain ⟨x, hx, rfl⟩ := List.mem_map.mp hy
    rw [hc2 x hx, sub_self]
    ring
  unfold welchStats
  simp only [hm1, hm2, hv1, hv2, zero_div, add_zero, hs, lt_self_iff_false, if_false,
    ne_eq, OfNat.ofNat_ne_zero, not_false_eq_true, zero_pow]

/-- C10: an unpaired t-test on two samples of at least two observations
each, each sample constant (zero sample variance), yields a zero
statistic via the `se > 0` guard, falls back to
`df = n1 + n2 - 2` because the Welch–Satterthwaite denominator is zero,
and reports `p_value = 1` and `is_significant = false`.  The two
environment facts assumed — `sqrt 0 = 0` and a CDF value of `1/2` at the
symmetry point `0` — hold of the real `f64::sqrt` and Student-t CDF. -/
theorem welch_zero_variance_neutral (E : DistEnv) (g1 g2 : List ℚ) (c1 c2 : ℚ)
    (h1 : 2 ≤ g1.length) (h2 : 2 ≤ g2.length)
    (hc1 : ∀ x ∈ g1, x = c1) (hc2 : ∀ x ∈ g2, x = c2)
    (hs : E.sqrt 0 = 0)
    (ht : E.tCdf ((g1.length : ℚ) + (g2.length : ℚ) - 2) 0 = 1 / 2) :
    (t_test E g1 g2 false).t_statistic = 0 ∧
    (t_test E g1 g2 false).df = (g1.length : ℚ) + (g2.length : ℚ) - 2 ∧
    (t_test E g1 g2 false).p_value = 1 ∧
    (t_test E g1 g2 false).is_significant = false := by
  have hw := welchStats_zero_variance E g1 g2 c1 c2 h1 h2 hc1 hc2 hs
  have hdf_pos : (0 : ℚ) < (g1.length : ℚ) + (g2.length : ℚ) - 2 := by
    have ha : (2 : ℚ) ≤ (g1.length : ℚ) := by exact_mod_cast h1
    have hb : (2 : ℚ) ≤ (g2.length : ℚ) := by exact_mod_cast h2
    linarith
  unfold t_test
  rw [if_neg (by rintro ⟨hfalse, -⟩; cases hfalse)]
  rw [if_neg (by rintro hfalse; cases hfalse)]
  rw [hw]
  simp only [studentsTNew, if_pos hdf_pos, abs_zero, ht]
  refine ⟨by norm_num, by norm_num, by norm_num, ?_⟩
  rw [decide_eq_false_iff_not]
  norm_num

/-- Witness for C10 at the constant samples `[3, 3]` and `[5, 5]`. -/
theorem welch_zero_variance_neutral_witness :
    (t_test E0 [3, 3] [5, 5] false).t_statistic = 0 ∧
    (t_test E0 [3, 3] [5, 5] false).df =
      ((([3, 3] : List ℚ).length : ℚ) + (([5, 5] : List ℚ).length : ℚ) - 2) ∧
    (t_test E0 [3, 3] [5, 5] false).p_value = 1 ∧
    (t_test E0 [3, 3] [5, 5] false).is_significant = false :=
  welch_zero_variance_neutral E0 [3, 3] [5, 5] 3 5 (by decide) (by decide)
    (by decide) (by decide) rfl rfl

/-- C8 (amended): every component is a pure function, so repeating a
call on the same immutable input — for `two_way_anova`, the same cell
sequence in the same iteration order — yields identical results.  The
stronger reading fails: two mappings equal as key-to-sample mappings but
iterated in different orders can yield different results, because the
replication count `r` is read from whichever cell the iteration yields
first.  What survives of the `r` clause is its order-independence under
balance: when every cell has the same replication count `c`, the read
yields the same value for any two iteration orders of the same mapping —
namely `c` whenever the mapping is nonempty. -/
theorem two_way_replication_balanced (d1 d2 : CellData) (c : Nat)
    (hperm : d1.Perm d2) (hbal : ∀ p ∈ d1, p.2.length = c) :
    replicationOf d1 = replicationOf d2 ∧
    (d1 ≠ [] → replicationOf d1 = c) := by
  cases d1 with
  | nil =>
    rw [hperm.symm.eq_nil]
    exact ⟨rfl, fun h => absurd rfl h⟩
  | cons a t =>
    cases d2 with
    | nil => cases List.Perm.eq_nil hperm
    | cons b u =>
      have ha := hbal a (List.mem_cons_self a t)
      have hb := hbal b (hperm.mem_iff.mpr (List.mem_cons_self b u))
      exact ⟨by simp [replicationOf, ha, hb], fun _ => by simp [replicationOf, ha]⟩

/-- Witness for C8 at a balanced two-cell mapping and its reversal. -/
theorem two_way_replication_balanced_witness :
    replicationOf [(((0 : Nat), (0 : Nat)), [(1 : ℚ), 2]), ((0, 1), [3, 4])] =
      replicationOf [(((0 : Nat), (1 : Nat)), [(3 : ℚ), 4]), ((0, 0), [1, 2])] ∧
    replicationOf [(((0 : Nat), (0 : Nat)), [(1 : ℚ), 2]), ((0, 1), [3, 4])] = 2 :=
  ⟨(two_way_replication_balanced _ _ 2 (List.Perm.swap _ _ []) (by decide)).1,
    (two_way_replication_balanced _ _ 2 (List.Perm.swap _ _ []) (by decide)).2
      (List.cons_ne_nil _ _)⟩

/-- Counterexample to C8 as stated: the two mappings below are equal as
key-to-sample mappings (one is the reversal of the other) but have cells
of unequal sizes, and the interaction sum of squares differs because the
replication count `r` is read from the first cell the map yields. -/
theorem two_way_order_dependence_cex :
    [(((0 : Nat), (0 : Nat)), [(0 : ℚ)]), ((1, 1), [2, 4])].Perm
        [(((1 : Nat), (1 : Nat)), [(2 : ℚ), 4]), ((0, 0), [0])] ∧
    two_way_anova E0 [((0, 0), [0]), ((1, 1), [2, 4])] 2 2 =
      some ((two_way_anova E0 [((0, 0), [0]), ((1, 1), [2, 4])] 2 2).getD twoWayDefault) ∧
    two_way_anova E0 [((1, 1), [2, 4]), ((0, 0), [0])] 2 2 =
      some ((two_way_anova E0 [((1, 1), [2, 4]), ((0, 0), [0])] 2 2).getD twoWayDefault) ∧
    ((two_way_anova E0 [((0, 0), [0]), ((1, 1), [2, 4])] 2 2).getD
        twoWayDefault).interaction.ss ≠
      ((two_way_anova E0 [((1, 1), [2, 4]), ((0, 0), [0])] 2 2).getD
        twoWayDefault).interaction.ss := by
  refine ⟨List.Perm.swap _ _ [], eq_some_getD _ _ (by decide),
    eq_some_getD _ _ (by decide), ?_⟩
  have e1 : ((two_way_anova E0 [((0, 0), [0]), ((1, 1), [2, 4])] 2 2).getD
      twoWayDefault).interaction.ss = 5 := by
    simp only [two_way_anova]
    rw [if_neg (by decide)]
    norm_num [nTotal, grandSum, factorAMean, factorASum, factorAN, factorBMean,
      factorBSum, factorBN, sampleMean, findCell, replicationOf, List.range_succ,
      Prod.mk.injEq]
    norm_num [Prod.ext_iff]
  have e2 : ((two_way_anova E0 [((1, 1), [2, 4]), ((0, 0), [0])] 2 2).getD
      twoWayDefault).interaction.ss = 10 := by
    simp only [two_way_anova]
    rw [if_neg (by decide)]
    norm_num [nTotal, grandSum, factorAMean, factorASum, factorAN, factorBMean,
      factorBSum, factorBN, sampleMean, findCell, replicationOf, List.range_succ,
      Prod.mk.injEq]
    norm_num [Prod.ext_iff]
  rw [e1, e2]
  norm_num
